import Mathlib

/-!
Shallow embedding of the prediction-and-accuracy-tracking core of the
TradingPredictor repository: the ensemble forecaster
(models/predictor.py), the prediction ledger (utils/prediction_logger.py)
and the sentiment scorer (utils/sentiment_analyzer.py).

Prices and percentages are modelled as rationals.  A data-frame cell is
an `Option ℚ`, with `none` standing for NaN.  The two external fitted
models (Prophet, RandomForestRegressor) are opaque to the code, so they
are modelled as plain functions stored in the trained state; a fit that
fails inside its try/except leaves the slot `none`, which is captured by
letting the fit oracle return an `Option`.
-/

/-- A pandas DataFrame as used by the predictor: named columns and rows of
cells, a cell being `none` when the underlying value is NaN. -/
structure DF where
  cols : List String
  rows : List (List (Option ℚ))
deriving Repr

/-- The `df.tail(n)` operation: keep the last `n` rows. -/
def tailDF (df : DF) (n : Nat) : DF :=
  ⟨df.cols, df.rows.drop (df.rows.length - n)⟩

/-- A fitted sklearn `MinMaxScaler` (default feature range (0,1)): it
remembers the per-column data minimum and maximum and the number of
features seen at fit time (`n_features_in_`). -/
structure Scaler where
  dataMin : List ℚ
  dataMax : List ℚ
  nFeatures : Nat
deriving Repr, DecidableEq

/-- Minimum of a list of rationals (0 on the empty list, which the code
never hits). -/
def minQ : List ℚ → ℚ
  | [] => 0
  | x :: xs => xs.foldl min x

/-- Maximum of a list of rationals (0 on the empty list). -/
def maxQ : List ℚ → ℚ
  | [] => 0
  | x :: xs => xs.foldl max x

/-- Column `j` of a matrix. -/
def colOf (mat : List (List ℚ)) (j : Nat) : List ℚ :=
  mat.map (fun r => r.getD j 0)

/-- Fit a `MinMaxScaler` on a feature matrix: per-column min and max. -/
def fitScaler (mat : List (List ℚ)) : Scaler :=
  let w := (mat.headD []).length
  { dataMin := (List.range w).map (fun j => minQ (colOf mat j))
    dataMax := (List.range w).map (fun j => maxQ (colOf mat j))
    nFeatures := w }

/-- The scale denominator of column `j`: `data_max - data_min`, with a
zero range replaced by 1 (sklearn's `_handle_zeros_in_scale`). -/
def scaleDenom (sc : Scaler) (j : Nat) : ℚ :=
  let d := sc.dataMax.getD j 0 - sc.dataMin.getD j 0
  if d = 0 then 1 else d

/-- `MinMaxScaler.transform` on one row. -/
def transformRow (sc : Scaler) (row : List ℚ) : List ℚ :=
  (List.range sc.nFeatures).map (fun j => (row.getD j 0 - sc.dataMin.getD j 0) / scaleDenom sc j)

/-- `MinMaxScaler.inverse_transform` on one row. -/
def inverseRow (sc : Scaler) (row : List ℚ) : List ℚ :=
  (List.range sc.nFeatures).map (fun j => row.getD j 0 * scaleDenom sc j + sc.dataMin.getD j 0)

/-- The five optional technical-indicator feature columns probed by
`prepare_data`, in the order the code lists them. -/
def techFeatures : List String :=
  [("RSI_14"), ("MACD"), ("SMA_20"), ("SMA_50"), ("volume")]

/-- The feature columns actually used: `close` plus whichever technical
columns are present in the frame. -/
def featureCols (df : DF) : List String :=
  ("close") :: techFeatures.filter (fun c => df.cols.contains c)

/-- `df[feature_columns].values` followed by `np.nan_to_num(·, nan=0.0)`:
project each row onto the feature columns, mapping NaN to 0. -/
def featureMatrix (df : DF) : List (List ℚ) :=
  df.rows.map (fun row => (featureCols df).map (fun c => ((row.getD (df.cols.indexOf c) none).getD 0)))

/-- `StockPredictor.prepare_data`: build the feature matrix, fit the
scaler on it, scale, and cut overlapping windows: for every `i` from
`lookback` to the end, window = scaled rows `[i-lookback, i)` and target
= scaled close at row `i`.  Returns the freshly fitted scaler (the source
mutates `self.scaler` here) together with the windows and targets. -/
def prepare_data (df : DF) (lookback : Nat) :
    Scaler × List (List (List ℚ)) × List ℚ :=
  let data := featureMatrix df
  let sc := fitScaler data
  let scaled := data.map (transformRow sc)
  let n := scaled.length
  (sc, (List.range (n - lookback)).map (fun k => (scaled.drop k).take lookback),
    (List.range (n - lookback)).map (fun k => (scaled.getD (k + lookback) []).getD 0 0))

/-- A fitted Prophet model, abstracted as the map from a requested number
of future periods to the last `periods` forecast rows
`(yhat, yhat_lower, yhat_upper)` that `predict_prophet` extracts. -/
def ProphetM : Type := Nat → List (ℚ × ℚ × ℚ)

/-- A fitted RandomForestRegressor, abstracted as the map from a
flattened feature window to the predicted scaled close. -/
def RFM : Type := List ℚ → ℚ

/-- The predictor's mutable state: scaler, the two optional sub-models,
and the `is_trained` flag. -/
structure State where
  scaler : Scaler
  prophet_model : Option ProphetM
  rf_model : Option RFM
  is_trained : Bool

/-- `StockPredictor.train`: reject empty or short input before touching
any state; otherwise run `prepare_data` (which replaces the scaler), fit
the two sub-models through their try/except wrappers — modelled by the
oracles `fitProphet` and `fitRF` whose `none` result stands for an
internal failure that leaves the slot unset — and mark the state
trained. -/
def train (st : State) (df : DF) (lookback : Nat)
    (fitProphet : DF → Option ProphetM)
    (fitRF : List (List (List ℚ)) → List ℚ → Option RFM) : State × Bool :=
  if df.rows.isEmpty || df.rows.length < lookback + 100 then (st, false)
  else
    let p := prepare_data df lookback
    if p.2.1.isEmpty then ({ st with scaler := p.1 }, false)
    else
      ({ scaler := p.1, prophet_model := fitProphet df, rf_model := fitRF p.2.1 p.2.2,
         is_trained := true }, true)

/-- One step of `predict_rf`'s loop on the flattened current sequence of
row width `k`: predict, then `np.roll(·, -1)` (rotate the flattened
array left by one) and overwrite the last row with the prediction. -/
def rfLoop (f : RFM) (k : Nat) : Nat → List ℚ → List ℚ
  | 0, _ => []
  | n + 1, cur =>
    let pred := f cur
    let rolled := cur.drop 1 ++ cur.take 1
    pred :: rfLoop f k n (rolled.take (rolled.length - k) ++ List.replicate k pred)

/-- `StockPredictor.predict_rf` for a fitted model: iterate the
one-step-ahead prediction `steps` times on the flattened window. -/
def predict_rf (f : RFM) (win : List (List ℚ)) (steps : Nat) : List ℚ :=
  rfLoop f (win.headD []).length steps win.flatten

/-- The `yhat` column of a Prophet forecast block. -/
def yhats (l : List (ℚ × ℚ × ℚ)) : List ℚ := l.map (fun r => r.1)

/-- The `yhat_lower` column of a Prophet forecast block. -/
def lowers (l : List (ℚ × ℚ × ℚ)) : List ℚ := l.map (fun r => r.2.1)

/-- The `yhat_upper` column of a Prophet forecast block. -/
def uppers (l : List (ℚ × ℚ × ℚ)) : List ℚ := l.map (fun r => r.2.2)

/-- The effective number of forecast steps:
`days if hours == 0 else max(1, int(hours / 24))`. -/
def stepCount (hours days : Nat) : Nat :=
  if hours = 0 then days else max 1 (hours / 24)

/-- `df['close'].iloc[-1]`: the raw close of the last row (taken before
NaN replacement; a NaN or missing value is totalised to 0). -/
def lastClose (df : DF) : ℚ :=
  ((df.rows.getLastD []).getD (df.cols.indexOf ("close")) none).getD 0

/-- A zero-padded full-width feature row holding a predicted scaled close
in column 0, fed to the scaler's inverse transform. -/
def padRow (n : Nat) (p : ℚ) : List ℚ := p :: List.replicate (n - 1) 0

/-- The populated prediction dictionary returned by
`StockPredictor.predict` (the untrained early return of the bare `{}` is
modelled as `none` at the call site). -/
structure PredResult where
  horizon : String
  predictions : List ℚ
  confidence_lower : List ℚ
  confidence_upper : List ℚ
  model_weights : List (String × ℚ)

/-- `StockPredictor.predict`: refuse when untrained; otherwise resolve
the step count and horizon label, query Prophet if fitted, re-run
`prepare_data` on the last 60 rows (which re-fits the shared scaler) to
build the random-forest input windows, and combine: both branches blend
0.6/0.4 with the sentiment adjustment, Prophet alone is used at full
weight, and anything else leaves the initialized empty lists in place. -/
def predict (st : State) (df : DF) (hours days : Nat) (sw : ℚ) :
    State × Option PredResult :=
  if st.is_trained = false then (st, none)
  else
    let total_days := stepCount hours days
    let horizon := if hours > 0 then toString hours ++ "h" else toString days ++ "d"
    let prophet_pred := st.prophet_model.map (fun m => m total_days)
    let p := prepare_data (tailDF df 60) 60
    let st' := { st with scaler := p.1 }
    let rf_pred : Option (List ℚ) :=
      if p.2.1.isEmpty then none
      else st.rf_model.map (fun f => predict_rf f (p.2.1.getLastD []) total_days)
    match prophet_pred, rf_pred with
    | some pp, some rp =>
      let prophet_values := yhats pp
      let rf_values := rp.map (fun q => (inverseRow p.1 (padRow p.1.nFeatures q)).getD 0 0)
      let ens := List.zipWith (fun a b => 6/10 * a + 4/10 * b) prophet_values rf_values
      let ens2 := if sw ≠ 0 then ens.map (fun a => a + lastClose df * sw * (2/100)) else ens
      (st', some { horizon := horizon, predictions := ens2, confidence_lower := lowers pp,
                   confidence_upper := uppers pp,
                   model_weights := [(("prophet"), 6/10), (("random_forest"), 4/10), (("sentiment"), |sw|)] })
    | some pp, none =>
      (st', some { horizon := horizon, predictions := yhats pp, confidence_lower := lowers pp,
                   confidence_upper := uppers pp, model_weights := [(("prophet"), 1)] })
    | none, _ =>
      (st', some { horizon := horizon, predictions := [], confidence_lower := [],
                   confidence_upper := [], model_weights := [] })

/-!  ## Prediction Ledger (utils/prediction_logger.py)  -/

/-- Round a rational to `d` decimal places (Python's `round(x, d)`;
the tie-breaking mode is immaterial for the properties below). -/
def roundq (d : Nat) (x : ℚ) : ℚ := ((round (x * 10 ^ d) : ℤ) : ℚ) / 10 ^ d

/-- One row of the predictions CSV.  Timestamps are seconds since an
arbitrary epoch; the three evaluation fields are `none` until
reconciliation fills them. -/
structure PredRecord where
  prediction_timestamp : Int
  symbol : String
  stock_name : String
  current_price : ℚ
  horizon : String
  target_timestamp : Int
  predicted_price : ℚ
  predicted_change_pct : ℚ
  actual_price : Option ℚ
  actual_change_pct : Option ℚ
  error_pct : Option ℚ
  accuracy_evaluated : Bool
deriving Repr, DecidableEq

instance : Inhabited PredRecord :=
  ⟨⟨0, "", "", 0, "", 0, 0, 0, none, none, none, false⟩⟩

/-- Python whitespace accepted (and stripped) by `int(str)`. -/
def isPyWS (c : Char) : Bool :=
  c == ' ' || c == '\t' || c == '\n' || c == '\r' || c == '\x0b' || c == '\x0c'

/-- The numeric value of a decimal digit character. -/
def dval (c : Char) : Nat := c.toNat - 48

/-- Digit-run parser for Python `int`: decimal digits with single
underscores allowed between digits (no leading, trailing or doubled
underscore). -/
def duAux : List Char → Nat → Option Nat
  | [], acc => some acc
  | c :: rest, acc =>
    if c.isDigit then duAux rest (acc * 10 + dval c)
    else if c = '_' then
      match rest with
      | [] => none
      | d :: rest2 => if d.isDigit then duAux rest2 (acc * 10 + dval d) else none
    else none

/-- Parse a nonempty underscore-grouped digit run. -/
def digitsUnd : List Char → Option Nat
  | [] => none
  | c :: rest => if c.isDigit then duAux rest (dval c) else none

/-- Python's `int(str)` on character lists: strip whitespace at both
ends, allow one optional sign, then a digit run. -/
def pyInt (l : List Char) : Option Int :=
  let t := ((l.dropWhile isPyWS).reverse.dropWhile isPyWS).reverse
  match t with
  | [] => none
  | c :: rest =>
    if c = '+' then (digitsUnd rest).map (fun n => (n : Int))
    else if c = '-' then (digitsUnd rest).map (fun n => -(n : Int))
    else (digitsUnd (c :: rest)).map (fun n => (n : Int))

/-- The horizon parse of `log_prediction`, returning the offset in
seconds: if the string contains an `h`, drop every `h` and read the rest
as an integer count of hours; otherwise if it contains a `d`, the same
with days; otherwise (or when `int` raises) the record is rejected. -/
def parseHorizonOffset (horizon : String) : Option Int :=
  let hl := horizon.toList
  if hl.contains 'h' then
    (pyInt (hl.filter (fun c => c ≠ 'h'))).map (fun n => n * 3600)
  else if hl.contains 'd' then
    (pyInt (hl.filter (fun c => c ≠ 'd'))).map (fun n => n * 86400)
  else none

/-- `PredictionLogger.log_prediction`: parse the horizon (a failed parse
is logged and appends nothing), compute the predicted change percentage
(a zero current price raises `ZeroDivisionError`, which the surrounding
`except` turns into a no-op), and append one record with empty
evaluation fields. -/
def log_prediction (ledger : List PredRecord) (now : Int) (symbol stock_name : String)
    (current_price : ℚ) (horizon : String) (predicted_price : ℚ) : List PredRecord :=
  match parseHorizonOffset horizon with
  | none => ledger
  | some off =>
    if current_price = 0 then ledger
    else
      ledger ++ [{ prediction_timestamp := now, symbol := symbol, stock_name := stock_name,
                   current_price := roundq 4 current_price, horizon := horizon,
                   target_timestamp := now + off,
                   predicted_price := roundq 4 predicted_price,
                   predicted_change_pct := roundq 2 ((predicted_price - current_price) / current_price * 100),
                   actual_price := none, actual_change_pct := none, error_pct := none,
                   accuracy_evaluated := false }]

/-- Look a symbol up in the `current_prices` dictionary (modelled as an
association list). -/
def lookupPrice (prices : List (String × ℚ)) (s : String) : Option ℚ :=
  (prices.find? (fun p => p.1 == s)).map (fun p => p.2)

/-- Whether `update_actual_values` updates a record: due
(`target_timestamp <= now`), not yet evaluated, and its symbol present
in the price batch. -/
def shouldUpdate (now : Int) (prices : List (String × ℚ)) (r : PredRecord) : Bool :=
  decide (r.target_timestamp ≤ now) && !r.accuracy_evaluated && (lookupPrice prices r.symbol).isSome

/-- The per-record body of `update_actual_values`'s loop: fill the three
evaluation fields and the flag when the record qualifies, otherwise
leave it alone; the Bool reports whether the update counter was
incremented. -/
def evalRecord (now : Int) (prices : List (String × ℚ)) (r : PredRecord) : PredRecord × Bool :=
  if r.target_timestamp ≤ now ∧ r.accuracy_evaluated = false then
    match lookupPrice prices r.symbol with
    | some actual =>
      ({ r with actual_price := some (roundq 4 actual),
                actual_change_pct := some (roundq 2 ((actual - r.current_price) / r.current_price * 100)),
                error_pct := some (roundq 2 |(actual - r.predicted_price) / actual * 100|),
                accuracy_evaluated := true }, true)
    | none => (r, false)
  else (r, false)

/-- `PredictionLogger.update_actual_values`: apply the loop body to every
record and count the updates. -/
def update_actual_values (ledger : List PredRecord) (prices : List (String × ℚ))
    (now : Int) : List PredRecord × Nat :=
  (ledger.map (fun r => (evalRecord now prices r).1),
   ledger.countP (fun r => (evalRecord now prices r).2))

/-- Median as pandas computes it: sort, middle element for odd length,
mean of the two middle elements for even length. -/
def medianQ (l : List ℚ) : ℚ :=
  let s := l.mergeSort (fun a b => decide (a ≤ b))
  let n := l.length
  if n = 0 then 0
  else if n % 2 = 1 then s.getD (n / 2) 0
  else (s.getD (n / 2 - 1) 0 + s.getD (n / 2) 0) / 2

/-- The dictionary returned by `get_accuracy_stats`; a key absent from
the returned Python dict is `none` here, like an explicit `None`. -/
structure AccStats where
  total_predictions : Nat
  evaluated_predictions : Nat
  average_error_pct : Option ℚ
  median_error_pct : Option ℚ
  correct_direction_pct : Option ℚ
  best_prediction_error : Option ℚ
  worst_prediction_error : Option ℚ
deriving Repr, DecidableEq

/-- The optional symbol/horizon filter of `get_accuracy_stats`; Python's
`if symbol:` skips the filter for `None` and for the empty string. -/
def filteredRecords (ledger : List PredRecord) (symbol horizon : Option String) :
    List PredRecord :=
  let d1 := match symbol with
    | none => ledger
    | some s => if s = "" then ledger else ledger.filter (fun r => r.symbol == s)
  match horizon with
  | none => d1
  | some h => if h = "" then d1 else d1.filter (fun r => r.horizon == h)

/-- The evaluated subset after filtering. -/
def evaluatedRecords (ledger : List PredRecord) (symbol horizon : Option String) :
    List PredRecord :=
  (filteredRecords ledger symbol horizon).filter (fun r => r.accuracy_evaluated)

/-- The direction test the code applies to one evaluated record:
`(predicted_change_pct > 0) == (actual_change_pct > 0)` (a NaN/absent
actual compares as not-greater, exactly as in pandas). -/
def dirAgree (r : PredRecord) : Bool :=
  decide (r.predicted_change_pct > 0) == decide ((r.actual_change_pct.getD 0) > 0)

/-- `PredictionLogger.get_accuracy_stats`: early return on an empty
ledger, filter, restrict to evaluated records, and compute mean, median,
min, max of the stored error percentages plus the direction-accuracy
percentage. -/
def get_accuracy_stats (ledger : List PredRecord) (symbol horizon : Option String) :
    AccStats :=
  if ledger.isEmpty then ⟨0, 0, none, none, none, none, none⟩
  else
    let dff := filteredRecords ledger symbol horizon
    let ev := dff.filter (fun r => r.accuracy_evaluated)
    if ev.isEmpty then ⟨dff.length, 0, none, none, none, none, none⟩
    else
      let errs := ev.map (fun r => r.error_pct.getD 0)
      { total_predictions := dff.length
        evaluated_predictions := ev.length
        average_error_pct := some (roundq 2 (errs.sum / (errs.length : ℚ)))
        median_error_pct := some (roundq 2 (medianQ errs))
        correct_direction_pct := some (roundq 2 (((ev.countP dirAgree : ℚ) / (ev.length : ℚ)) * 100))
        best_prediction_error := some (roundq 2 (minQ errs))
        worst_prediction_error := some (roundq 2 (maxQ errs)) }

/-!  ## Sentiment Scorer (utils/sentiment_analyzer.py)  -/

/-- The aggregate dictionary produced by `analyze_news_list`. -/
structure SentSummary where
  avg_sentiment : ℚ
  sentiment_score : ℚ
  positive_count : Nat
  negative_count : Nat
  neutral_count : Nat
  total_articles : Nat
  sentiment_trend : String

/-- The Sentiment Summary invariant of the data model: class counts sum
to the article total and the aggregate score is
`(positive_count - negative_count) / total` (0 for an empty batch). -/
def SentSummary.WellFormed (s : SentSummary) : Prop :=
  s.positive_count + s.negative_count + s.neutral_count = s.total_articles ∧
    s.sentiment_score =
      (if s.total_articles = 0 then 0
       else ((s.positive_count : ℚ) - (s.negative_count : ℚ)) / (s.total_articles : ℚ))

/-- `SentimentAnalyzer.get_sentiment_weight`: 0 without articles,
otherwise the score scaled by the article-volume confidence
`min(total/20, 1)` and the base weight. -/
def get_sentiment_weight (s : SentSummary) (default_weight : ℚ) : ℚ :=
  if s.total_articles = 0 then 0
  else s.sentiment_score * min ((s.total_articles : ℚ) / 20) 1 * default_weight

/-!  ## General lemmas about the embedding  -/

theorem featureMatrix_length (df : DF) : (featureMatrix df).length = df.rows.length := by
  simp [featureMatrix]

theorem prepare_windows_length (df : DF) (lookback : Nat) :
    (prepare_data df lookback).2.1.length = df.rows.length - lookback := by
  simp [prepare_data, featureMatrix]

theorem tailDF_rows_le (df : DF) (n : Nat) : (tailDF df n).rows.length ≤ n := by
  simp only [tailDF, List.length_drop]
  omega

/-- The prediction-time feature preparation can never produce a window:
it is run on `df.tail(60)` (at most 60 rows) with the default lookback of
60, so the window range `range(60, len)` is always empty. -/
theorem predict_windows_empty (df : DF) :
    (prepare_data (tailDF df 60) 60).2.1 = [] := by
  have h := prepare_windows_length (tailDF df 60) 60
  have h2 := tailDF_rows_le df 60
  apply List.eq_nil_of_length_eq_zero
  omega

/-!  ## Claim C3: train marks the state trained whenever data sufficed  -/

/-- C3: for every input history that is non-empty and has at least
`lookback + 100` rows and for which the feature builder produced at
least one window, `train` returns `true` — regardless of whether either
sub-model fit (the `fitProphet` / `fitRF` oracles) failed — and the
returned state carries `is_trained = true`; moreover `train` returns
`true` exactly when those conditions hold. -/
theorem C3_train_success_iff (st : State) (df : DF) (lookback : Nat)
    (fp : DF → Option ProphetM) (fr : List (List (List ℚ)) → List ℚ → Option RFM) :
    ((train st df lookback fp fr).2 = true ↔
      (df.rows ≠ [] ∧ lookback + 100 ≤ df.rows.length ∧
        (prepare_data df lookback).2.1 ≠ [])) ∧
    ((train st df lookback fp fr).2 = true →
      (train st df lookback fp fr).1.is_trained = true) := by
  simp only [train]
  split
  next h1 =>
    simp only [List.isEmpty_iff, Bool.or_eq_true, decide_eq_true_eq] at h1
    refine ⟨⟨fun hf => absurd hf (by simp), ?_⟩, fun hf => absurd hf (by simp)⟩
    rintro ⟨hne, hlen, -⟩
    exfalso
    rcases h1 with h | h
    · exact hne h
    · omega
  next h1 =>
    simp only [List.isEmpty_iff, Bool.or_eq_true, decide_eq_true_eq, not_or] at h1
    split
    next h2 =>
      refine ⟨⟨fun hf => absurd hf (by simp), ?_⟩, fun hf => absurd hf (by simp)⟩
      rintro ⟨-, -, hne⟩
      exact (hne (List.isEmpty_iff.mp h2)).elim
    next h2 =>
      refine ⟨⟨fun _ => ⟨h1.1, by omega, fun hnil => h2 (by simp [hnil])⟩, fun _ => rfl⟩,
        fun _ => rfl⟩

set_option maxRecDepth 8000 in
/-- Witness for C3: a 160-row single-column history trains successfully
even when both sub-model fits fail. -/
theorem C3_train_success_iff_witness :
    (train ⟨⟨[], [], 0⟩, none, none, false⟩ ⟨[("close")], List.replicate 160 [some 1]⟩ 60
        (fun _ => none) (fun _ _ => none)).2 = true := by
  have h := C3_train_success_iff ⟨⟨[], [], 0⟩, none, none, false⟩
    ⟨[("close")], List.replicate 160 [some 1]⟩ 60 (fun _ => none) (fun _ _ => none)
  refine h.1.mpr ⟨by simp, by simp, ?_⟩
  have hl := prepare_windows_length ⟨[("close")], List.replicate 160 [some 1]⟩ 60
  simp only [List.length_replicate] at hl
  apply List.ne_nil_of_length_pos
  omega

/-!  ## Claim C5: train on short input fails without touching state  -/

/-- C5: on any history with fewer than `lookback + 100` rows, `train`
returns `false` and the whole prior state — scaler, both sub-models and
the trained flag — is returned unchanged. -/
theorem C5_train_insufficient_preserves_state (st : State) (df : DF) (lookback : Nat)
    (fp : DF → Option ProphetM) (fr : List (List (List ℚ)) → List ℚ → Option RFM)
    (h : df.rows.length < lookback + 100) :
    train st df lookback fp fr = (st, false) := by
  unfold train
  rw [if_pos]
  simp [h]

/-- Witness for C5: training a previously trained state on a 3-row
history returns failure with the state intact. -/
theorem C5_train_insufficient_preserves_state_witness :
    train ⟨⟨[5], [9], 1⟩, none, none, true⟩ ⟨[("close")], [[some 1], [some 2], [some 3]]⟩ 60
        (fun _ => none) (fun _ _ => none) =
      (⟨⟨[5], [9], 1⟩, none, none, true⟩, false) := by
  apply C5_train_insufficient_preserves_state
  simp

/-!  ## Claim C10: sentiment weight shape  -/

/-- C10: for every base weight `b ≥ 0`, `get_sentiment_weight` returns 0
on a summary with no articles; for a fixed sentiment score its magnitude
is non-decreasing in the article count up to 20 and constant beyond 20;
and on every well-formed summary its magnitude never exceeds `b`. -/
theorem C10_weight_zero_monotone_bounded (b : ℚ) (hb : 0 ≤ b) :
    (∀ s : SentSummary, s.total_articles = 0 → get_sentiment_weight s b = 0) ∧
    (∀ s t : SentSummary, s.sentiment_score = t.sentiment_score →
      s.total_articles ≤ t.total_articles → t.total_articles ≤ 20 →
      |get_sentiment_weight s b| ≤ |get_sentiment_weight t b|) ∧
    (∀ s t : SentSummary, s.sentiment_score = t.sentiment_score →
      20 ≤ s.total_articles → 20 ≤ t.total_articles →
      get_sentiment_weight s b = get_sentiment_weight t b) ∧
    (∀ s : SentSummary, s.WellFormed → |get_sentiment_weight s b| ≤ b) := by
  have hmin0 : ∀ n : Nat, (0:ℚ) ≤ min ((n : ℚ) / 20) 1 :=
    fun n => le_min (by positivity) (by norm_num)
  refine ⟨fun s h0 => by simp [get_sentiment_weight, h0], ?_, ?_, ?_⟩
  · intro s t hsc hle h20
    by_cases hs0 : s.total_articles = 0
    · simp only [get_sentiment_weight, hs0, if_pos rfl, abs_zero]
      exact abs_nonneg _
    · have ht0 : t.total_articles ≠ 0 := fun h => hs0 (by omega)
      rw [get_sentiment_weight, get_sentiment_weight, if_neg hs0, if_neg ht0, hsc]
      rw [abs_mul, abs_mul, abs_mul, abs_mul,
        abs_of_nonneg (hmin0 s.total_articles), abs_of_nonneg (hmin0 t.total_articles)]
      have hmm : min ((s.total_articles : ℚ) / 20) 1 ≤ min ((t.total_articles : ℚ) / 20) 1 := by
        apply min_le_min _ le_rfl
        apply div_le_div_of_nonneg_right _ (by norm_num)
        exact_mod_cast hle
      exact mul_le_mul_of_nonneg_right
        (mul_le_mul_of_nonneg_left hmm (abs_nonneg _)) (abs_nonneg _)
  · intro s t hsc hs20 ht20
    have hs0 : s.total_articles ≠ 0 := by omega
    have ht0 : t.total_articles ≠ 0 := by omega
    have hone : ∀ n : Nat, 20 ≤ n → min ((n : ℚ) / 20) 1 = 1 := by
      intro n hn
      apply min_eq_right
      rw [le_div_iff₀ (by norm_num : (0:ℚ) < 20)]
      have : (20:ℚ) ≤ (n:ℚ) := by exact_mod_cast hn
      linarith
    rw [get_sentiment_weight, get_sentiment_weight, if_neg hs0, if_neg ht0, hsc,
      hone _ hs20, hone _ ht20]
  · rintro s ⟨hcnt, hscore⟩
    by_cases h0 : s.total_articles = 0
    · simpa [get_sentiment_weight, h0] using hb
    · have hT : (0:ℚ) < (s.total_articles : ℚ) := by
        exact_mod_cast Nat.pos_of_ne_zero h0
      have habs : |s.sentiment_score| ≤ 1 := by
        rw [hscore, if_neg h0, abs_div, abs_of_pos hT, div_le_one hT]
        calc |(s.positive_count : ℚ) - (s.negative_count : ℚ)|
            ≤ |(s.positive_count : ℚ)| + |(s.negative_count : ℚ)| := abs_sub _ _
          _ = (s.positive_count : ℚ) + (s.negative_count : ℚ) := by
              rw [abs_of_nonneg (Nat.cast_nonneg _), abs_of_nonneg (Nat.cast_nonneg _)]
          _ ≤ (s.total_articles : ℚ) := by
              have : s.positive_count + s.negative_count ≤ s.total_articles := by omega
              exact_mod_cast this
      rw [get_sentiment_weight, if_neg h0]
      calc |s.sentiment_score * min ((s.total_articles : ℚ) / 20) 1 * b|
          = |s.sentiment_score| * min ((s.total_articles : ℚ) / 20) 1 * b := by
            rw [abs_mul, abs_mul, abs_of_nonneg (hmin0 s.total_articles), abs_of_nonneg hb]
        _ ≤ 1 * 1 * b := by
            apply mul_le_mul_of_nonneg_right _ hb
            exact mul_le_mul habs (min_le_right _ _) (hmin0 s.total_articles) (by norm_num)
        _ = b := by ring

/-- Witness for C10: the zero-article case, monotonicity between 5 and
10 articles, saturation between 25 and 30 articles, and the bound on a
concrete well-formed summary, all at the default base weight 0.3. -/
theorem C10_weight_zero_monotone_bounded_witness :
    get_sentiment_weight ⟨0, 0, 0, 0, 0, 0, ("No Data")⟩ (3/10) = 0 ∧
    |get_sentiment_weight ⟨0, 1/2, 0, 0, 0, 5, ("x")⟩ (3/10)| ≤
      |get_sentiment_weight ⟨0, 1/2, 0, 0, 0, 10, ("x")⟩ (3/10)| ∧
    get_sentiment_weight ⟨0, 1/2, 0, 0, 0, 25, ("x")⟩ (3/10) =
      get_sentiment_weight ⟨0, 1/2, 0, 0, 0, 30, ("x")⟩ (3/10) ∧
    |get_sentiment_weight ⟨0, 1/2, 3, 1, 0, 4, ("x")⟩ (3/10)| ≤ 3/10 := by
  have h := C10_weight_zero_monotone_bounded (3/10) (by norm_num)
  exact ⟨h.1 _ rfl, h.2.1 _ _ rfl (by norm_num) (by norm_num),
    h.2.2.1 _ _ rfl (by norm_num) (by norm_num),
    h.2.2.2 _ ⟨by norm_num, by norm_num⟩⟩

/-!  ## Claim C9: stats on zero evaluated records report no numbers  -/

/-- C9: whenever the (optionally filtered) ledger contains no evaluated
record, `get_accuracy_stats` reports `evaluated_predictions = 0` and
every numeric error/accuracy field as absent (`none`), never as 0. -/
theorem C9_stats_zero_evaluated (ledger : List PredRecord) (symbol horizon : Option String)
    (h : evaluatedRecords ledger symbol horizon = []) :
    (get_accuracy_stats ledger symbol horizon).evaluated_predictions = 0 ∧
    (get_accuracy_stats ledger symbol horizon).average_error_pct = none ∧
    (get_accuracy_stats ledger symbol horizon).median_error_pct = none ∧
    (get_accuracy_stats ledger symbol horizon).correct_direction_pct = none ∧
    (get_accuracy_stats ledger symbol horizon).best_prediction_error = none ∧
    (get_accuracy_stats ledger symbol horizon).worst_prediction_error = none := by
  rw [evaluatedRecords] at h
  simp only [get_accuracy_stats]
  split
  next => exact ⟨rfl, rfl, rfl, rfl, rfl, rfl⟩
  next =>
    split
    next => exact ⟨rfl, rfl, rfl, rfl, rfl, rfl⟩
    next h2 => exact (h2 (by simp [h])).elim

/-- Witness for C9: a one-record ledger whose record is not yet
evaluated reports an absent mean error. -/
theorem C9_stats_zero_evaluated_witness :
    (get_accuracy_stats [(⟨0, ("A"), ("Alpha"), 100, ("1d"), 86400, 105, 5, none, none,
        none, false⟩ : PredRecord)] none none).average_error_pct = none :=
  (C9_stats_zero_evaluated _ none none (by rfl)).2.1

/-!  ## Lemmas about the reconciliation loop body  -/

theorem evalRecord_eq_self (now : Int) (prices : List (String × ℚ)) (r : PredRecord)
    (h : shouldUpdate now prices r = false) : evalRecord now prices r = (r, false) := by
  unfold shouldUpdate at h
  unfold evalRecord
  by_cases hc : r.target_timestamp ≤ now ∧ r.accuracy_evaluated = false
  · rw [if_pos hc]
    cases hl : lookupPrice prices r.symbol with
    | none => rfl
    | some v =>
      exfalso
      rcases hc with ⟨h1, h2⟩
      rw [hl] at h
      simp [h1, h2] at h
  · rw [if_neg hc]

theorem evalRecord_evaluated (now : Int) (prices : List (String × ℚ)) (r : PredRecord)
    (h : shouldUpdate now prices r = true) :
    (evalRecord now prices r).1.accuracy_evaluated = true ∧ (evalRecord now prices r).2 = true := by
  unfold shouldUpdate at h
  unfold evalRecord
  have hc : r.target_timestamp ≤ now ∧ r.accuracy_evaluated = false := by
    constructor
    · by_contra hb
      simp [hb] at h
    · cases hval : r.accuracy_evaluated
      · rfl
      · rw [hval] at h
        simp at h
  rw [if_pos hc]
  cases hl : lookupPrice prices r.symbol with
  | none =>
    rw [hl] at h
    simp at h
  | some v => exact ⟨rfl, rfl⟩

theorem evalRecord_preserves (now : Int) (prices : List (String × ℚ)) (r : PredRecord) :
    (evalRecord now prices r).1.prediction_timestamp = r.prediction_timestamp ∧
    (evalRecord now prices r).1.symbol = r.symbol ∧
    (evalRecord now prices r).1.stock_name = r.stock_name ∧
    (evalRecord now prices r).1.current_price = r.current_price ∧
    (evalRecord now prices r).1.horizon = r.horizon ∧
    (evalRecord now prices r).1.target_timestamp = r.target_timestamp ∧
    (evalRecord now prices r).1.predicted_price = r.predicted_price ∧
    (evalRecord now prices r).1.predicted_change_pct = r.predicted_change_pct := by
  unfold evalRecord
  by_cases hc : r.target_timestamp ≤ now ∧ r.accuracy_evaluated = false
  · rw [if_pos hc]
    cases hl : lookupPrice prices r.symbol with
    | none => exact ⟨rfl, rfl, rfl, rfl, rfl, rfl, rfl, rfl⟩
    | some v => exact ⟨rfl, rfl, rfl, rfl, rfl, rfl, rfl, rfl⟩
  · rw [if_neg hc]
    exact ⟨rfl, rfl, rfl, rfl, rfl, rfl, rfl, rfl⟩

theorem evalRecord_snd (now : Int) (prices : List (String × ℚ)) (r : PredRecord) :
    (evalRecord now prices r).2 = shouldUpdate now prices r := by
  by_cases h : shouldUpdate now prices r = true
  · rw [h, (evalRecord_evaluated now prices r h).2]
  · have hf : shouldUpdate now prices r = false := by simpa using h
    rw [hf, evalRecord_eq_self now prices r hf]

theorem evalRecord_idem (now : Int) (prices : List (String × ℚ)) (r : PredRecord) :
    evalRecord now prices (evalRecord now prices r).1 = ((evalRecord now prices r).1, false) := by
  by_cases h : shouldUpdate now prices r = true
  · apply evalRecord_eq_self
    unfold shouldUpdate
    simp [(evalRecord_evaluated now prices r h).1]
  · have hf : shouldUpdate now prices r = false := by simpa using h
    have he := evalRecord_eq_self now prices r hf
    rw [he]
    exact evalRecord_eq_self now prices r hf

/-!  ## Claim C2: reconcile updates exactly the due records, idempotently  -/

/-- C2: `update_actual_values` keeps the ledger length; a record that is
not due, already evaluated, or whose symbol is absent from the price
batch is returned exactly as it was; every record keeps all of its
non-evaluation fields, and a qualifying record comes back with the
evaluated flag set; the returned count is the number of qualifying
records; and running the call again on its own output with the same
inputs changes nothing and reports 0 updates. -/
theorem C2_reconcile_frame_idempotent (ledger : List PredRecord)
    (prices : List (String × ℚ)) (now : Int) :
    ((update_actual_values ledger prices now).1.length = ledger.length) ∧
    (∀ i : Nat, ∀ r : PredRecord, ledger[i]? = some r →
      shouldUpdate now prices r = false →
      (update_actual_values ledger prices now).1[i]? = some r) ∧
    (∀ i : Nat, ∀ r u : PredRecord, ledger[i]? = some r →
      (update_actual_values ledger prices now).1[i]? = some u →
      (u.prediction_timestamp = r.prediction_timestamp ∧ u.symbol = r.symbol ∧
       u.stock_name = r.stock_name ∧ u.current_price = r.current_price ∧
       u.horizon = r.horizon ∧ u.target_timestamp = r.target_timestamp ∧
       u.predicted_price = r.predicted_price ∧
       u.predicted_change_pct = r.predicted_change_pct) ∧
      (shouldUpdate now prices r = true → u.accuracy_evaluated = true)) ∧
    ((update_actual_values ledger prices now).2 =
      ledger.countP (fun r => shouldUpdate now prices r)) ∧
    (update_actual_values (update_actual_values ledger prices now).1 prices now =
      ((update_actual_values ledger prices now).1, 0)) := by
  refine ⟨by simp [update_actual_values], ?_, ?_, ?_, ?_⟩
  · intro i r hir hfalse
    simp only [update_actual_values, List.getElem?_map, hir]
    simp [evalRecord_eq_self now prices r hfalse]
  · intro i r u hir hiu
    simp only [update_actual_values, List.getElem?_map, hir, Option.map_some] at hiu
    have hu : u = (evalRecord now prices r).1 := by
      cases hiu
      rfl
    subst hu
    exact ⟨evalRecord_preserves now prices r,
      fun ht => (evalRecord_evaluated now prices r ht).1⟩
  · simp only [update_actual_values]
    exact List.countP_congr (fun r _ => by rw [evalRecord_snd now prices r])
  · simp only [update_actual_values, List.map_map, List.countP_map]
    rw [Prod.mk.injEq]
    refine ⟨?_, ?_⟩
    · apply List.map_congr_left
      intro r _
      show (evalRecord now prices (evalRecord now prices r).1).1 = (evalRecord now prices r).1
      rw [evalRecord_idem now prices r]
    · rw [List.countP_eq_zero]
      intro r _
      show ((evalRecord now prices (evalRecord now prices r).1).2 = true) → False
      rw [evalRecord_idem now prices r]
      simp

/-- Witness for C2: a single due record with a matching price is updated
once (count 1) and a second identical call is the identity with count
0. -/
theorem C2_reconcile_frame_idempotent_witness :
    (update_actual_values
        (update_actual_values [(⟨0, ("X"), ("X co"), 100, ("1d"), 500, 105, 5, none, none,
          none, false⟩ : PredRecord)] [(("X"), 103)] 1000).1 [(("X"), 103)] 1000 =
      ((update_actual_values [(⟨0, ("X"), ("X co"), 100, ("1d"), 500, 105, 5, none, none,
          none, false⟩ : PredRecord)] [(("X"), 103)] 1000).1, 0)) ∧
    (update_actual_values [(⟨0, ("X"), ("X co"), 100, ("1d"), 500, 105, 5, none, none,
        none, false⟩ : PredRecord)] [(("X"), 103)] 1000).2 = 1 := by
  have h := C2_reconcile_frame_idempotent [(⟨0, ("X"), ("X co"), 100, ("1d"), 500, 105, 5,
    none, none, none, false⟩ : PredRecord)] [(("X"), 103)] 1000
  refine ⟨h.2.2.2.2, ?_⟩
  rw [h.2.2.2.1]
  decide

/-!  ## Claim C6: malformed horizons  -/

/-- The horizon-string grammar stated by the spec (§6): `^\d+[hd]$`, a
nonempty digit run followed by exactly one `h` or `d`. -/
def horizonGrammar (s : String) : Bool :=
  let l := s.toList
  (decide (l.dropLast ≠ [])) && l.dropLast.all (fun c => c.isDigit) &&
    (l.getLastD ' ' == 'h' || l.getLastD ' ' == 'd')

theorem digit_ne (c d : Char) (h : c.isDigit = true) (hd : d.isDigit = false) : c ≠ d := by
  intro he
  rw [he, hd] at h
  cases h

theorem digit_not_ws (c : Char) (h : c.isDigit = true) : isPyWS c = false := by
  by_contra hb
  simp only [Bool.not_eq_false] at hb
  simp only [isPyWS, Bool.or_eq_true, beq_iff_eq] at hb
  rcases hb with ((((h1 | h1) | h1) | h1) | h1) | h1 <;> rw [h1] at h <;>
    exact absurd h (by decide)

theorem dropWhile_ws_of_digits (l : List Char) (h : ∀ c ∈ l, c.isDigit = true) :
    l.dropWhile isPyWS = l := by
  cases l with
  | nil => rfl
  | cons c rest =>
    rw [List.dropWhile_cons, digit_not_ws c (h c (List.mem_cons_self c rest))]
    simp

theorem duAux_digits (l : List Char) (h : ∀ c ∈ l, c.isDigit = true) (acc : Nat) :
    ∃ n, duAux l acc = some n := by
  induction l generalizing acc with
  | nil => exact ⟨acc, rfl⟩
  | cons c rest ih =>
    rw [duAux.eq_def]
    simp only []
    rw [if_pos (h c (List.mem_cons_self c rest))]
    exact ih (fun x hx => h x (List.mem_cons_of_mem c hx)) _

theorem digitsUnd_digits (l : List Char) (hne : l ≠ []) (h : ∀ c ∈ l, c.isDigit = true) :
    ∃ n, digitsUnd l = some n := by
  cases l with
  | nil => exact absurd rfl hne
  | cons c rest =>
    rw [digitsUnd, if_pos (h c (List.mem_cons_self c rest))]
    exact duAux_digits rest (fun x hx => h x (List.mem_cons_of_mem c hx)) _

theorem pyInt_digits (l : List Char) (hne : l ≠ []) (h : ∀ c ∈ l, c.isDigit = true) :
    ∃ n, pyInt l = some n := by
  cases l with
  | nil => exact absurd rfl hne
  | cons c rest =>
    have h1 : (c :: rest).dropWhile isPyWS = c :: rest := dropWhile_ws_of_digits _ h
    have h2 : (c :: rest).reverse.dropWhile isPyWS = (c :: rest).reverse :=
      dropWhile_ws_of_digits _ (fun x hx => h x (List.mem_reverse.mp hx))
    have hc := h c (List.mem_cons_self c rest)
    obtain ⟨n, hn⟩ := digitsUnd_digits (c :: rest) (by simp) h
    refine ⟨(n : Int), ?_⟩
    unfold pyInt
    simp only [h1, h2, List.reverse_reverse]
    rw [if_neg (digit_ne c '+' hc (by decide)), if_neg (digit_ne c '-' hc (by decide)), hn]
    rfl

theorem contains_false_of_not_mem (l : List Char) (a : Char) (h : a ∉ l) :
    l.contains a = false := by
  simpa using h

theorem filter_strip (ds : List Char) (c : Char) (h : ∀ x ∈ ds, x ≠ c) :
    (ds ++ [c]).filter (fun x => decide (x ≠ c)) = ds := by
  rw [List.filter_append]
  have h1 : ds.filter (fun x => decide (x ≠ c)) = ds :=
    List.filter_eq_self.mpr (fun a ha => by simp [h a ha])
  have h2 : [c].filter (fun x => decide (x ≠ c)) = [] := by simp
  rw [h1, h2, List.append_nil]

/-- C6 (amended): whenever the code's lenient horizon parse fails — the
string has no `h` and no `d`, or stripping the letter leaves something
`int` rejects — `log_prediction` appends nothing and returns the ledger
unchanged; and every string of the spec grammar `^\d+[hd]$` is accepted
and (for a nonzero current price) appends exactly one record.  The
grammar in the original claim understates the accepted set: the lenient
parse also accepts strings such as `"-3h"` (see the counterexample). -/
theorem C6_horizon_no_op_and_grammar (ledger : List PredRecord) (now : Int)
    (symbol stock_name : String) (current_price predicted_price : ℚ) (horizon : String) :
    (parseHorizonOffset horizon = none →
      log_prediction ledger now symbol stock_name current_price horizon predicted_price
        = ledger) ∧
    (horizonGrammar horizon = true → current_price ≠ 0 →
      (log_prediction ledger now symbol stock_name current_price horizon
        predicted_price).length = ledger.length + 1) := by
  constructor
  · intro h
    unfold log_prediction
    rw [h]
  · intro hg hcp
    simp only [horizonGrammar, Bool.and_eq_true, Bool.or_eq_true, decide_eq_true_eq,
      List.all_eq_true, beq_iff_eq] at hg
    obtain ⟨⟨hne, hdig⟩, hlast⟩ := hg
    have hlne : horizon.toList ≠ [] := fun h0 => hne (by rw [h0]; rfl)
    have hsplit : horizon.toList.dropLast ++ [horizon.toList.getLast hlne] = horizon.toList :=
      List.dropLast_append_getLast hlne
    have hgl : horizon.toList.getLastD ' ' = horizon.toList.getLast hlne := by
      rw [List.getLastD_eq_getLast?, List.getLast?_eq_getLast _ hlne]
      rfl
    have hpar : ∃ off, parseHorizonOffset horizon = some off := by
      rcases hlast with hch | hcd
      · have hc : horizon.toList.getLast hlne = 'h' := by rw [← hgl]; exact hch
        rw [hc] at hsplit
        have hcont : horizon.toList.contains 'h' = true := by
          rw [← hsplit]
          simp
        have hfil : horizon.toList.filter (fun x => decide (x ≠ 'h'))
            = horizon.toList.dropLast := by
          conv_lhs => rw [← hsplit]
          exact filter_strip _ 'h' (fun x hx => digit_ne x 'h' (hdig x hx) (by decide))
        obtain ⟨n, hn⟩ := pyInt_digits _ hne hdig
        refine ⟨n * 3600, ?_⟩
        unfold parseHorizonOffset
        simp only [hcont, if_true, hfil, hn, Option.map]
      · have hc : horizon.toList.getLast hlne = 'd' := by rw [← hgl]; exact hcd
        rw [hc] at hsplit
        have hconth : horizon.toList.contains 'h' = false := by
          rw [← hsplit]
          apply contains_false_of_not_mem
          intro hm
          rcases List.mem_append.mp hm with hm | hm
          · exact absurd (hdig _ hm) (by decide)
          · rw [List.mem_singleton] at hm
            exact absurd hm (by decide)
        have hcontd : horizon.toList.contains 'd' = true := by
          rw [← hsplit]
          simp
        have hfil : horizon.toList.filter (fun x => decide (x ≠ 'd'))
            = horizon.toList.dropLast := by
          conv_lhs => rw [← hsplit]
          exact filter_strip _ 'd' (fun x hx => digit_ne x 'd' (hdig x hx) (by decide))
        obtain ⟨n, hn⟩ := pyInt_digits _ hne hdig
        refine ⟨n * 86400, ?_⟩
        unfold parseHorizonOffset
        simp only [hconth, hcontd, if_true, Bool.false_eq_true, if_false, hfil, hn, Option.map]
    obtain ⟨off, hoff⟩ := hpar
    simp only [log_prediction, hoff]
    rw [if_neg hcp]
    simp

/-- Witness for C6 (amended): the unit-free string `"90"` is rejected as
a no-op, and the grammar string `"2h"` appends one record. -/
theorem C6_horizon_no_op_and_grammar_witness :
    (log_prediction [] 0 ("X") ("Xco") 100 ("90") 105 = []) ∧
    (log_prediction [] 0 ("X") ("Xco") 100 ("2h") 105).length = 0 + 1 := by
  have h1 := C6_horizon_no_op_and_grammar [] 0 ("X") ("Xco") 100 105 ("90")
  have h2 := C6_horizon_no_op_and_grammar [] 0 ("X") ("Xco") 100 105 ("2h")
  exact ⟨h1.1 (by decide), by simpa using h2.2 (by decide) (by norm_num)⟩

/-- C6 counterexample: the horizon string `"-3h"` does not match the
spec grammar `^\d+[hd]$`, yet `log_prediction` parses it (Python's `int`
accepts a sign after the `h` characters are stripped) and appends a
record instead of being a no-op. -/
theorem C6_malformed_horizon_counterexample :
    horizonGrammar ("-3h") = false ∧
    (log_prediction [] 0 ("X") ("Xco") 100 ("-3h") 105).length = 1 := by
  constructor
  · decide
  · decide

/-!  ## Claims C1, C4, C7: the predict combination, sentiment and frame  -/

/-- The seasonal branch's point forecast: available exactly when the
Prophet slot is fitted (this matches both the spec and the code's
`predict_prophet`). -/
def seasonalBranch (st : State) (steps : Nat) : Option (List ℚ) :=
  st.prophet_model.map (fun m => yhats (m steps))

/-- Modelled from the spec (§4.3, regression branch): if the
window-regression model is fitted, take the last lookback-window of the
scaled features of the input history, iteratively predict the next
scaled close sliding the window one step at a time, and
inverse-transform the scaled predictions through a zero-padded full
feature row, keeping the close column. -/
def regressionBranchSpec (st : State) (df : DF) (lookback steps : Nat) : Option (List ℚ) :=
  st.rf_model.map (fun f =>
    let scaled := (featureMatrix df).map (transformRow st.scaler)
    let lastWin := scaled.drop (scaled.length - lookback)
    (predict_rf f lastWin steps).map
      (fun q => (inverseRow st.scaler (padRow st.scaler.nFeatures q)).getD 0 0))

/-- Modelled from the spec (§4.3, combination): blend
`0.6 × seasonal + 0.4 × regression` elementwise when both branches
produced a forecast, use the sole successful branch alone at full weight
when exactly one did, and return empty when neither did. -/
def specCombine : Option (List ℚ) → Option (List ℚ) → List ℚ
  | some a, some b => List.zipWith (fun x y => 6/10 * x + 4/10 * y) a b
  | some a, none => a
  | none, some b => b
  | none, none => []

/-- Concrete trained state for C1: no seasonal model, a fitted constant
regression model, and a scaler fitted over the range [0, 2]. -/
def stC1 : State := ⟨⟨[0], [2], 1⟩, none, some (fun _ => 3/4), true⟩

/-- Concrete close-only history for C1. -/
def dfC1 : DF := ⟨[("close")], [[some 1]]⟩

/-- C1 counterexample: on a trained predictor whose seasonal branch is
unavailable but whose regression branch is fitted (and per the spec
would produce a forecast of length `stepCount = 1`), `predict` returns
an empty prediction list instead of the regression-only forecast: the
code has no regression-only combination path, so the claimed rule — that
the result equals the spec combination of the two branch forecasts — is
violated here (lengths 0 versus 1). -/
theorem C1_combination_counterexample :
    seasonalBranch stC1 (stepCount 0 1) = none ∧
    (regressionBranchSpec stC1 dfC1 60 (stepCount 0 1)).map List.length = some 1 ∧
    ((predict stC1 dfC1 0 1 0).2.map PredResult.predictions) = some [] ∧
    (specCombine (seasonalBranch stC1 (stepCount 0 1))
      (regressionBranchSpec stC1 dfC1 60 (stepCount 0 1))).length = 1 ∧
    ([] : List ℚ).length ≠ 1 := by
  refine ⟨by decide, by decide, by decide, by decide, by decide⟩

/-- C1 (amended): on a trained predictor the returned prediction list is
the seasonal (Prophet) point forecast when that model is fitted and
empty otherwise; the regression branch never contributes, because the
predict-time feature preparation runs on the last 60 rows with lookback
60 and therefore always yields zero windows. -/
theorem C1_predict_combination_amended (st : State) (df : DF) (hours days : Nat) (sw : ℚ)
    (ht : st.is_trained = true) :
    ((predict st df hours days sw).2.map PredResult.predictions) =
      some (match st.prophet_model with
            | some m => yhats (m (stepCount hours days))
            | none => []) := by
  unfold predict
  rw [if_neg (by rw [ht]; simp)]
  have hw := predict_windows_empty df
  cases hp : st.prophet_model with
  | none => simp [hw, hp]
  | some m => simp [hw, hp]

/-- Concrete trained seasonal-only state for the C1 witness. -/
def stC1w : State := ⟨⟨[0], [1], 1⟩, some (fun n => List.replicate n (7, 6, 8)), none, true⟩

/-- Concrete one-row history for the C1 witness. -/
def dfC1w : DF := ⟨[("close")], [[some 1]]⟩

/-- Witness for C1 (amended): a trained seasonal-only predictor returns
exactly the Prophet forecast for a 2-day horizon. -/
theorem C1_predict_combination_amended_witness :
    ((predict stC1w dfC1w 0 2 0).2.map PredResult.predictions) = some [(7 : ℚ), (7 : ℚ)] := by
  have h := C1_predict_combination_amended stC1w dfC1w 0 2 0 rfl
  simpa [stC1w, yhats, stepCount] using h

/-- C4 counterexample: on a trained seasonal-only predictor with last
close 50 and `sentimentWeight = 1`, the returned predictions are the raw
Prophet values `[100]` — the claimed flat adjustment
`lastClose × weight × 0.02 = 1` is not added, because the code only
applies it on the (unreachable) both-branches path. -/
theorem C4_sentiment_adjustment_counterexample :
    ((predict ⟨⟨[0], [1], 1⟩, some (fun n => List.replicate n (100, 90, 110)), none, true⟩
        ⟨[("close")], [[some 50]]⟩ 0 1 1).2.map PredResult.predictions) = some [(100 : ℚ)] ∧
    lastClose ⟨[("close")], [[some 50]]⟩ = 50 ∧
    (100 : ℚ) ≠ 100 + 50 * 1 * (2 / 100) := by
  refine ⟨by decide, by decide, by norm_num⟩

/-- C4 (amended): the sentiment adjustment lives only on the
both-branches path, which can never execute (the regression branch
produces no forecast at predict time), so the result of `predict` is
entirely independent of the sentiment weight. -/
theorem C4_predict_ignores_sentiment (st : State) (df : DF) (hours days : Nat) (w w' : ℚ) :
    predict st df hours days w = predict st df hours days w' := by
  unfold predict
  by_cases ht : st.is_trained = false
  · rw [if_pos ht, if_pos ht]
  · rw [if_neg ht, if_neg ht]
    have hw := predict_windows_empty df
    cases hp : st.prophet_model with
    | none => simp [hw, hp]
    | some m => simp [hw, hp]

/-- C7 counterexample: a trained predictor's fitted scaler is replaced
during `predict` (the predict-time `prepare_data` call re-fits it on the
last 60 rows), so the Trained Model State is not read-only under
prediction calls. -/
theorem C7_scaler_mutated_counterexample :
    (⟨⟨[5], [9], 1⟩, none, none, true⟩ : State).is_trained = true ∧
    (predict ⟨⟨[5], [9], 1⟩, none, none, true⟩ ⟨[("close")], [[some 1]]⟩ 0 1 0).1.scaler
      ≠ (⟨⟨[5], [9], 1⟩, none, none, true⟩ : State).scaler := by
  refine ⟨rfl, by decide⟩

/-- C7 (amended): `predict` leaves the fitted seasonal model, the fitted
regression model and the trained flag unchanged on every call; only the
shared scaler is re-fitted (on the last 60 rows) during a trained call,
so the rest of the Trained Model State is indeed read-only until the
next `train`. -/
theorem C7_predict_preserves_models_and_flag (st : State) (df : DF) (hours days : Nat)
    (sw : ℚ) :
    (predict st df hours days sw).1.prophet_model = st.prophet_model ∧
    (predict st df hours days sw).1.rf_model = st.rf_model ∧
    (predict st df hours days sw).1.is_trained = st.is_trained := by
  unfold predict
  by_cases ht : st.is_trained = false
  · rw [if_pos ht]
    exact ⟨rfl, rfl, rfl⟩
  · rw [if_neg ht]
    have hw := predict_windows_empty df
    cases hp : st.prophet_model with
    | none => simp [hw, hp]
    | some m => simp [hw, hp]

/-!  ## Claim C8: directional accuracy  -/

theorem roundq_intCast (d : Nat) (n : ℤ) : roundq d ((n : ℚ)) = (n : ℚ) := by
  unfold roundq
  rw [show ((n : ℚ) * 10 ^ d) = (((n * 10 ^ d : ℤ)) : ℚ) by push_cast; ring, round_intCast]
  push_cast
  rw [mul_div_assoc, div_self (by positivity), mul_one]

theorem filteredRecords_nil (symbol horizon : Option String) :
    filteredRecords [] symbol horizon = [] := by
  cases symbol <;> cases horizon <;> simp [filteredRecords]

/-- The three-valued sign used by the spec's directional-accuracy rule. -/
def signq (x : ℚ) : Int := if x > 0 then 1 else if x < 0 then -1 else 0

/-- Modelled from the spec (§4.4): directional accuracy as the fraction
of evaluated records whose sign of predicted change equals the sign of
actual change, as a percentage. -/
def specDirectionPct (ev : List PredRecord) : ℚ :=
  100 * ((ev.countP (fun r => signq r.predicted_change_pct ==
    signq (r.actual_change_pct.getD 0)) : ℚ) / (ev.length : ℚ))

/-- Concrete evaluated record for the C8 counterexample: zero predicted
change against a negative actual change. -/
def recC8a : PredRecord :=
  ⟨0, ("X"), ("Xco"), 100, ("1d"), 0, 100, 0, some 95, some (-5), some 5, true⟩

/-- C8 counterexample: a ledger with a single evaluated record whose
predicted change is 0 and whose actual change is -5 is reported as 100%
directionally accurate by the code (it compares `>0` on both sides, so
"flat" and "down" coincide), while the spec's sign rule — a zero
predicted change matches only a zero actual change — yields 0%. -/
theorem C8_direction_sign_counterexample :
    (get_accuracy_stats [recC8a] none none).correct_direction_pct = some 100 ∧
    specDirectionPct [recC8a] = 0 ∧ ((100 : ℚ) ≠ 0) := by
  refine ⟨?_, ?_, by norm_num⟩
  · simp only [get_accuracy_stats]
    rw [if_neg (by decide), if_neg (by decide)]
    show some (roundq 2 ((((
      (filteredRecords [recC8a] none none).filter (fun r => r.accuracy_evaluated)).countP
        dirAgree : ℚ) /
      (((filteredRecords [recC8a] none none).filter (fun r => r.accuracy_evaluated)).length : ℚ))
        * 100)) = some 100
    rw [show (filteredRecords [recC8a] none none).filter (fun r => r.accuracy_evaluated)
      = [recC8a] from by decide]
    rw [show ([recC8a] : List PredRecord).countP dirAgree = 1 from by decide]
    rw [show ([recC8a] : List PredRecord).length = 1 from rfl]
    rw [show (((1 : Nat) : ℚ) / ((1 : Nat) : ℚ)) * 100 = ((100 : ℤ) : ℚ) by norm_num]
    rw [roundq_intCast]
    norm_num
  · unfold specDirectionPct
    rw [show ([recC8a] : List PredRecord).countP (fun r => signq r.predicted_change_pct ==
      signq (r.actual_change_pct.getD 0)) = 0 from by decide]
    norm_num

/-- C8 (amended): on any ledger with at least one evaluated record after
filtering, the reported directional accuracy is the fraction of
evaluated records for which `(predicted_change_pct > 0)` and
`(actual_change_pct > 0)` agree — an up/not-up comparison, not the
spec's three-valued sign comparison — expressed as a rounded
percentage. -/
theorem C8_direction_reported (ledger : List PredRecord) (symbol horizon : Option String)
    (hne : evaluatedRecords ledger symbol horizon ≠ []) :
    (get_accuracy_stats ledger symbol horizon).correct_direction_pct =
      some (roundq 2 ((((evaluatedRecords ledger symbol horizon).countP dirAgree : ℚ) /
        ((evaluatedRecords ledger symbol horizon).length : ℚ)) * 100)) := by
  have hl : ledger ≠ [] := by
    intro h0
    apply hne
    rw [h0, evaluatedRecords, filteredRecords_nil]
    rfl
  rw [evaluatedRecords] at hne ⊢
  simp only [get_accuracy_stats]
  rw [if_neg (by simpa [List.isEmpty_iff] using hl)]
  rw [if_neg (by simpa [List.isEmpty_iff] using hne)]

/-- Concrete evaluated record for the C8 witness: predicted and actual
changes both positive. -/
def recC8b : PredRecord :=
  ⟨0, ("X"), ("Xco"), 100, ("1d"), 0, 103, 3, some 103, some 3, some 0, true⟩

/-- Witness for C8 (amended): the reported directional accuracy on a
one-record evaluated ledger equals the agreement fraction formula. -/
theorem C8_direction_reported_witness :
    (get_accuracy_stats [recC8b] none none).correct_direction_pct =
      some (roundq 2 ((((evaluatedRecords [recC8b] none none).countP dirAgree : ℚ) /
        ((evaluatedRecords [recC8b] none none).length : ℚ)) * 100)) :=
  C8_direction_reported [recC8b] none none (by decide)
